import Mathlib

/-!
# Nantes mobility interactive map — verification of the filtering pipeline

Shallow embedding of the single-file Vue application (`src/App.vue`): the
dataset store, the filter state, the computed filtering/aggregation pipeline
(`stopsFilteredByType`, `visibleStops`, `stats`), the drawing functions
(`drawShapes`, `drawStops` and the popup content they build), and the user
action handlers (`toggleStopsMaster`, `toggleType`, `toggleLine`,
`clearLineSelection`, plus the template-level search-text and show-all-lines
mutations).

Numbers that the source holds as JS floats (latitudes, longitudes, shape
points) are modelled as `Rat`; the program never computes with them, it only
passes them through to the drawing layer.
-/

namespace NantesMap

/-- `interface Stop` of the source: id, display name, coordinates. -/
structure Stop where
  stop_id : String
  stop_name : String
  stop_lat : Rat
  stop_lon : Rat
deriving DecidableEq, Repr

/-- `interface StopMeta` of the source: mode flag, line memberships,
optional wheelchair flag. -/
structure StopMeta where
  is_tram : Bool
  lines : List String
  wheelchair : Option Bool
deriving DecidableEq, Repr

/-- `interface Shape` of the source: route name, hex color, polyline points
(`number[][]`). -/
structure Shape where
  route_name : String
  color : String
  points : List (List Rat)
deriving DecidableEq, Repr

/-- The three static collections the app loads once: `stopsData` (array),
`stopsMeta` (record keyed by stop id) and `shapesData` (record of shapes,
used through `Object.values`, i.e. in insertion order). -/
structure Dataset where
  stopsData : List Stop
  stopsMeta : List (String × StopMeta)
  shapesData : List Shape
deriving DecidableEq, Repr

/-- The six reactive refs that make up the UI / filter state:
`showStops`, `showBus`, `showTram`, `showAllLines`, `searchQuery`,
`selectedLines` (a JS `Set`, modelled as its insertion-ordered element
list, membership-queried and tested for emptiness only). -/
structure FilterState where
  showStops : Bool
  showBus : Bool
  showTram : Bool
  showAllLines : Bool
  searchQuery : String
  selectedLines : List String
deriving DecidableEq, Repr

/-- Record lookup `stopsMeta[stop_id]`: JS object keys are unique, so the
first match of an association-list lookup models it. -/
def lookupMeta (ds : Dataset) (id : String) : Option StopMeta :=
  ds.stopsMeta.lookup id

/-- `const isTram = meta ? meta.is_tram : false` — a stop with absent
metadata counts as bus. -/
def isTramOf (ds : Dataset) (stop : Stop) : Bool :=
  match lookupMeta ds stop.stop_id with
  | some meta => meta.is_tram
  | none => false

/-- Step 1 of the pipeline (`stopsFilteredByType`): keep a stop unless its
mode is toggled off.  Mirrors the two early returns of the source filter. -/
def stopsFilteredByType (ds : Dataset) (fs : FilterState) : List Stop :=
  ds.stopsData.filter (fun stop =>
    let isTram := isTramOf ds stop
    if isTram && !fs.showTram then false
    else if !isTram && !fs.showBus then false
    else true)

/-- Step 2 of the pipeline (`visibleStops`): empty when the master switch is
off; all type-filtered stops when no line is selected; otherwise the
type-filtered stops whose metadata lines meet the selection (a stop with no
metadata is dropped). -/
def visibleStops (ds : Dataset) (fs : FilterState) : List Stop :=
  if !fs.showStops then []
  else
    let baseStops := stopsFilteredByType ds fs
    if fs.selectedLines.isEmpty then baseStops
    else baseStops.filter (fun stop =>
      match lookupMeta ds stop.stop_id with
      | none => false
      | some meta => meta.lines.any (fun line => fs.selectedLines.contains line))

/-- `linesMap.set(line, (linesMap.get(line) || 0) + 1)` on a JS `Map`:
increment in place when the key exists (keeping its position), append
`(line, 1)` otherwise. -/
def bumpLine (m : List (String × Nat)) (line : String) : List (String × Nat) :=
  if m.any (fun p => p.1 == line) then
    m.map (fun p => if p.1 == line then (p.1, p.2 + 1) else p)
  else m ++ [(line, 1)]

/-- The inner `meta.lines.forEach` of the stats loop. -/
def addStopLines (m : List (String × Nat)) (meta : StopMeta) : List (String × Nat) :=
  meta.lines.foldl bumpLine m

/-- One iteration of the aggregation loop of `stats`: a stop without
metadata is skipped entirely (`if (meta) { ... }`); otherwise the matching
mode counter is incremented and the stop's lines are tallied. -/
def statsStep (ds : Dataset) (acc : Nat × Nat × List (String × Nat)) (stop : Stop) :
    Nat × Nat × List (String × Nat) :=
  match lookupMeta ds stop.stop_id with
  | none => acc
  | some meta =>
    if meta.is_tram then (acc.1, acc.2.1 + 1, addStopLines acc.2.2 meta)
    else (acc.1 + 1, acc.2.1, addStopLines acc.2.2 meta)

/-- The aggregation loop of `stats` over a given stop list, producing
`(busCount, tramCount, linesMap-as-entry-list)`. -/
def statsFold (ds : Dataset) (stops : List Stop) : Nat × Nat × List (String × Nat) :=
  stops.foldl (statsStep ds) (0, 0, [])

/-- The aggregation of `stats`, run (as in the source) over the
type-filtered stops, not over `visibleStops`. -/
def statsAgg (ds : Dataset) (fs : FilterState) : Nat × Nat × List (String × Nat) :=
  statsFold ds (stopsFilteredByType ds fs)

/-- `Array.from(linesMap.entries())` — entry list in insertion order, i.e.
first-occurrence order of the line ids in the scan. -/
def linesEntries (ds : Dataset) (fs : FilterState) : List (String × Nat) :=
  (statsAgg ds fs).2.2

/-- The comparator `(a, b) => b[1] - a[1]` of the source induces this total
preorder: `a` may precede `b` iff `a`'s count is at least `b`'s. -/
def statRel (a b : String × Nat) : Prop := b.2 ≤ a.2

instance : DecidableRel statRel := fun a b => Nat.decLe b.2 a.2

instance : IsTotal (String × Nat) statRel :=
  ⟨fun a b => Nat.le_total b.2 a.2⟩

instance : IsTrans (String × Nat) statRel :=
  ⟨fun _ _ _ h1 h2 => Nat.le_trans h2 h1⟩

/-- `sortedLines` before the search filter: the entry list sorted by count
descending with a stable sort (JS `Array.prototype.sort` is stable). -/
def sortedLinesBase (ds : Dataset) (fs : FilterState) : List (String × Nat) :=
  (linesEntries ds fs).insertionSort statRel

/-- `s.toLowerCase()` (ASCII-faithful character lowering). -/
def lower (s : String) : String :=
  String.mk (s.data.map Char.toLower)

/-- `hay.includes(needle)`: substring containment. -/
def strIncludes (hay needle : String) : Bool :=
  (List.range (hay.data.length + 1)).any (fun i =>
    (hay.data.drop i).take needle.data.length == needle.data)

/-- `s.trim() === ''`: true iff every character is whitespace. -/
def trimEmpty (s : String) : Bool :=
  s.data.all (fun c => c.isWhitespace)

/-- `sortedLines` after the conditional search filter: when
`searchQuery.trim() !== ''`, keep the entries whose lowered name contains
the lowered (untrimmed) query. -/
def sortedLinesAfterSearch (ds : Dataset) (fs : FilterState) : List (String × Nat) :=
  if !(trimEmpty fs.searchQuery) then
    (sortedLinesBase ds fs).filter (fun l =>
      strIncludes (lower l.1) (lower fs.searchQuery))
  else sortedLinesBase ds fs

/-- `displayedLines`: the full list when `showAllLines` or the raw search
text is non-empty, else only the first 6 entries (`slice(0, 6)`). -/
def displayedLines (ds : Dataset) (fs : FilterState) : List (String × Nat) :=
  if fs.showAllLines || !(fs.searchQuery == "") then sortedLinesAfterSearch ds fs
  else (sortedLinesAfterSearch ds fs).take 6

/-- The shapes the `drawShapes` loop actually draws: skip everything when
both mode toggles are off; skip a shape when some lines are selected and
this shape's route is not among them. -/
def visibleShapes (ds : Dataset) (fs : FilterState) : List Shape :=
  ds.shapesData.filter (fun shape =>
    if !fs.showBus && !fs.showTram then false
    else if !fs.selectedLines.isEmpty && !(fs.selectedLines.contains shape.route_name) then false
    else true)

/-- `lineColors` lookup: the record is filled by a `forEach` over
`Object.values(shapesData)` with plain assignment, so the last shape with a
given route name wins. -/
def colorForLine (ds : Dataset) (line : String) : Option String :=
  (ds.shapesData.reverse.find? (fun sh => sh.route_name == line)).map (fun sh => sh.color)

/-- The structured popup content `drawStops` builds for one stop: name in
the header, one badge per metadata line with its color (fallback
`#3b82f6`), the accessibility row text (always `Oui`), and the optional
image block keyed by exact stop name. -/
structure PopupContent where
  stopName : String
  badges : List (String × String)
  accessText : String
  image : Option String
deriving DecidableEq, Repr

/-- The two hard-coded image URLs. -/
def commerceImg : String := "https://i.imgur.com/4GEU71O.png"

def gacheImg : String := "https://i.imgur.com/WbbaBkg.jpeg"

/-- Popup construction from `drawStops` (sections A–D).  The image block is
first set for `Commerce`, then (overwriting) for `Vincent Gâche`. -/
def buildPopup (ds : Dataset) (stop : Stop) : PopupContent :=
  let meta := lookupMeta ds stop.stop_id
  let badges := match meta with
    | none => []
    | some m => m.lines.map (fun line => (line, (colorForLine ds line).getD "#3b82f6"))
  let image1 : Option String :=
    if stop.stop_name == "Commerce" then some commerceImg else none
  let image2 : Option String :=
    if stop.stop_name == "Vincent Gâche" then some gacheImg else image1
  { stopName := stop.stop_name, badges := badges, accessText := "Oui", image := image2 }

/-- The icon variant of a marker (section E of `drawStops`). -/
inductive Icon where
  | bus
  | tram
deriving DecidableEq, Repr

/-- One marker emitted by `drawStops`. -/
structure Marker where
  lat : Rat
  lon : Rat
  icon : Icon
  popup : PopupContent
deriving DecidableEq, Repr

/-- The marker `drawStops` emits for one stop: position, mode icon
(`meta?.is_tram` — undefined counts as bus), popup content. -/
def markerOf (ds : Dataset) (stop : Stop) : Marker :=
  { lat := stop.stop_lat, lon := stop.stop_lon,
    icon := if isTramOf ds stop then Icon.tram else Icon.bus,
    popup := buildPopup ds stop }

/-- The full marker layer `drawStops` rebuilds: one marker per visible
stop, in order. -/
def renderMarkers (ds : Dataset) (fs : FilterState) : List Marker :=
  (visibleStops ds fs).map (markerOf ds)

/-- One polyline emitted by `drawShapes`: stored points and color, plus the
popup label naming the line. -/
structure Polyline where
  points : List (List Rat)
  color : String
  popupLabel : String
deriving DecidableEq, Repr

/-- The full polyline layer `drawShapes` rebuilds. -/
def renderShapes (ds : Dataset) (fs : FilterState) : List Polyline :=
  (visibleShapes ds fs).map (fun sh =>
    { points := sh.points, color := sh.color, popupLabel := "Ligne " ++ sh.route_name })

/-- The derived view of the engine: visible stops, visible shapes, the
displayed line statistics and the two mode counters. -/
structure DerivedView where
  visStops : List Stop
  visShapes : List Shape
  lineStats : List (String × Nat)
  busCount : Nat
  tramCount : Nat
deriving DecidableEq, Repr

/-- `deriveView(stops, meta, shapes, filterState)` of the spec, assembled
from the computed properties of the source. -/
def deriveView (ds : Dataset) (fs : FilterState) : DerivedView :=
  { visStops := visibleStops ds fs, visShapes := visibleShapes ds fs,
    lineStats := displayedLines ds fs,
    busCount := (statsAgg ds fs).1, tramCount := (statsAgg ds fs).2.1 }

/-- The application state a user action handler sees: the filter state plus
the current contents of the two Leaflet layers. -/
structure AppState where
  filter : FilterState
  markers : List Marker
  shapes : List Polyline
deriving DecidableEq, Repr

/-- `drawStops()`: clear the marker layer and rebuild it from the current
filter state. -/
def drawStops (ds : Dataset) (s : AppState) : AppState :=
  { s with markers := renderMarkers ds s.filter }

/-- `drawShapes()`: clear the polyline layer and rebuild it from the
current filter state. -/
def drawShapes (ds : Dataset) (s : AppState) : AppState :=
  { s with shapes := renderShapes ds s.filter }

/-- `redraw()`: `drawStops(); drawShapes()`. -/
def redraw (ds : Dataset) (s : AppState) : AppState :=
  drawShapes ds (drawStops ds s)

/-- Handler `toggleStopsMaster`: flip the master switch, then `drawStops()`
only. -/
def toggleStopsMaster (ds : Dataset) (s : AppState) : AppState :=
  drawStops ds { s with filter := { s.filter with showStops := !s.filter.showStops } }

/-- The argument of `toggleType`. -/
inductive VehicleKind where
  | bus
  | tram
deriving DecidableEq, Repr

/-- Handler `toggleType('bus' | 'tram')`: flip the matching flag, then
`redraw()`. -/
def toggleType (ds : Dataset) (kind : VehicleKind) (s : AppState) : AppState :=
  redraw ds { s with filter :=
    match kind with
    | VehicleKind.bus => { s.filter with showBus := !s.filter.showBus }
    | VehicleKind.tram => { s.filter with showTram := !s.filter.showTram } }

/-- Handler `toggleLine(lineName)`: `Set` delete when present, add when
absent, then `redraw()`. -/
def toggleLine (ds : Dataset) (lineName : String) (s : AppState) : AppState :=
  redraw ds { s with filter := { s.filter with selectedLines :=
    (if s.filter.selectedLines.contains lineName then
      s.filter.selectedLines.filter (fun l => !(l == lineName))
    else s.filter.selectedLines ++ [lineName]) } }

/-- Handler `clearLineSelection`: `Set.clear()`, then `redraw()`. -/
def clearLineSelection (ds : Dataset) (s : AppState) : AppState :=
  redraw ds { s with filter := { s.filter with selectedLines := [] } }

/-- The `v-model` mutation of the search box: sets `searchQuery` and calls
no drawing function (the sidebar list is reactive, the map layers are
not redrawn). -/
def setSearchQuery (q : String) (s : AppState) : AppState :=
  { s with filter := { s.filter with searchQuery := q } }

/-- The template click `showAllLines = !showAllLines`: flips the flag and
calls no drawing function. -/
def toggleShowAllLines (s : AppState) : AppState :=
  { s with filter := { s.filter with showAllLines := !s.filter.showAllLines } }

/-- The layers-match-state invariant: both Leaflet layers hold exactly what
a rebuild from the current filter state would produce. -/
def synced (ds : Dataset) (s : AppState) : Prop :=
  s.markers = renderMarkers ds s.filter ∧ s.shapes = renderShapes ds s.filter

/-- The line list recorded for a stop: its metadata's lines, or none. -/
def linesOfMeta : Option StopMeta → List String
  | none => []
  | some m => m.lines

/-- Whether a stop has a metadata entry. -/
def hasMeta (ds : Dataset) (stop : Stop) : Bool :=
  (lookupMeta ds stop.stop_id).isSome

/-- The sequence of line ids encountered by the stats scan over a stop
list: each stop with metadata contributes its lines in order, a stop
without metadata contributes nothing. -/
def lineScan (ds : Dataset) : List Stop → List String
  | [] => []
  | stop :: rest =>
    (match lookupMeta ds stop.stop_id with
     | none => []
     | some m => m.lines) ++ lineScan ds rest

/-- First occurrences of a string list that are not in `seen`, in order. -/
def firstOccAux : List String → List String → List String
  | _, [] => []
  | seen, x :: xs =>
    if seen.contains x then firstOccAux seen xs
    else x :: firstOccAux (x :: seen) xs

/-- The elements of a string list in first-occurrence order. -/
def firstOccurrences (l : List String) : List String :=
  firstOccAux [] l

/-- The value a JS `Map`-as-association-list holds at a key (0 when the
key is absent): first matching entry wins. -/
def assocValue : List (String × Nat) → String → Nat
  | [], _ => 0
  | p :: m, x => if p.1 == x then p.2 else assocValue m x

/-! ### Concrete data used by witnesses and counterexamples -/

/-- The spec's scenario dataset: stop `S1` (tram, lines `T1`), stop `S2`
(bus, lines `L1`, `T1`), one shape for `T1`, plus a stop `S3` that has no
metadata entry. -/
def dsW : Dataset :=
  { stopsData := [
      { stop_id := "S1", stop_name := "A", stop_lat := 1, stop_lon := 2 },
      { stop_id := "S2", stop_name := "B", stop_lat := 3, stop_lon := 4 },
      { stop_id := "S3", stop_name := "Commerce", stop_lat := 5, stop_lon := 6 }],
    stopsMeta := [
      ("S1", { is_tram := true, lines := ["T1"], wheelchair := none }),
      ("S2", { is_tram := false, lines := ["L1", "T1"], wheelchair := none })],
    shapesData := [
      { route_name := "T1", color := "#00FF00", points := [[0, 0], [1, 1]] }] }

/-- The default filter state: everything visible, nothing selected. -/
def fsDef : FilterState :=
  { showStops := true, showBus := true, showTram := true, showAllLines := false,
    searchQuery := "", selectedLines := [] }

/-- Default filters with a whitespace-only (non-empty) search text. -/
def fsBlankSearch : FilterState := { fsDef with searchQuery := " " }

/-- Default filters with search text `t`. -/
def fsSearchT : FilterState := { fsDef with searchQuery := "t" }

/-- Default filters with the sidebar list expanded. -/
def fsShowAll : FilterState := { fsDef with showAllLines := true }

/-- A filter state agreeing with `fsDef` on `showBus`, `showTram` and
`selectedLines` but differing on the three other fields. -/
def fsOtherFlags : FilterState :=
  { fsDef with showStops := false, searchQuery := "x", showAllLines := true }

/-- A ten-line dataset: one bus stop belonging to ten distinct lines. -/
def ds10 : Dataset :=
  { stopsData := [
      { stop_id := "S1", stop_name := "Hub", stop_lat := 0, stop_lon := 0 }],
    stopsMeta := [
      ("S1", { is_tram := false,
               lines := ["A", "B", "C", "D", "E", "F", "G", "H", "I", "J"],
               wheelchair := none })],
    shapesData := [] }

/-- The tram stop `S1` of the scenario dataset. -/
def stopS1 : Stop := { stop_id := "S1", stop_name := "A", stop_lat := 1, stop_lon := 2 }

/-- The metadata-less stop `S3` of the scenario dataset. -/
def stopS3 : Stop := { stop_id := "S3", stop_name := "Commerce", stop_lat := 5, stop_lon := 6 }

/-- The single shape of the scenario dataset. -/
def shapeT1 : Shape := { route_name := "T1", color := "#00FF00", points := [[0, 0], [1, 1]] }

/-- Default filters with buses hidden and trams shown. -/
def fsTramOnly : FilterState := { fsDef with showBus := false }

/-- An application state whose layers are stale (empty) relative to its
filter state. -/
def s0 : AppState := { filter := fsDef, markers := [], shapes := [] }

/-- An application state whose layers match its filter state. -/
def sSynced : AppState :=
  { filter := fsDef, markers := renderMarkers dsW fsDef, shapes := renderShapes dsW fsDef }

/-! ### Helper lemmas -/

/-- The shape filter reads only `showBus`, `showTram` and `selectedLines`. -/
theorem visibleShapes_agree (ds : Dataset) {fs fs' : FilterState}
    (h1 : fs'.showBus = fs.showBus) (h2 : fs'.showTram = fs.showTram)
    (h3 : fs'.selectedLines = fs.selectedLines) :
    visibleShapes ds fs' = visibleShapes ds fs := by
  simp only [visibleShapes, h1, h2, h3]

/-- The polyline layer rebuild reads only `showBus`, `showTram` and
`selectedLines`. -/
theorem renderShapes_agree (ds : Dataset) {fs fs' : FilterState}
    (h1 : fs'.showBus = fs.showBus) (h2 : fs'.showTram = fs.showTram)
    (h3 : fs'.selectedLines = fs.selectedLines) :
    renderShapes ds fs' = renderShapes ds fs := by
  rw [renderShapes, renderShapes, visibleShapes_agree ds h1 h2 h3]

/-- The stop pipeline reads only `showStops`, `showBus`, `showTram` and
`selectedLines`. -/
theorem visibleStops_agree (ds : Dataset) {fs fs' : FilterState}
    (h0 : fs'.showStops = fs.showStops) (h1 : fs'.showBus = fs.showBus)
    (h2 : fs'.showTram = fs.showTram) (h3 : fs'.selectedLines = fs.selectedLines) :
    visibleStops ds fs' = visibleStops ds fs := by
  simp only [visibleStops, stopsFilteredByType, h0, h1, h2, h3]

/-- The marker layer rebuild reads only `showStops`, `showBus`, `showTram`
and `selectedLines`. -/
theorem renderMarkers_agree (ds : Dataset) {fs fs' : FilterState}
    (h0 : fs'.showStops = fs.showStops) (h1 : fs'.showBus = fs.showBus)
    (h2 : fs'.showTram = fs.showTram) (h3 : fs'.selectedLines = fs.selectedLines) :
    renderMarkers ds fs' = renderMarkers ds fs := by
  rw [renderMarkers, renderMarkers, visibleStops_agree ds h0 h1 h2 h3]

/-- The keep-condition of the shape filter, spelled out. -/
theorem shapeKeep_iff (fs : FilterState) (name : String) :
    ((if !fs.showBus && !fs.showTram then false
      else if !fs.selectedLines.isEmpty && !(fs.selectedLines.contains name) then false
      else true) = true)
      ↔ ((fs.showBus = true ∨ fs.showTram = true) ∧
          (fs.selectedLines = [] ∨ name ∈ fs.selectedLines)) := by
  cases hb : fs.showBus <;> cases ht : fs.showTram <;>
    by_cases hsel : fs.selectedLines = [] <;>
      simp [hsel, List.isEmpty_iff, List.elem_iff]

/-- The keep-condition of the type filter, spelled out. -/
theorem typeKeep_iff (fs : FilterState) (t : Bool) :
    ((if t && !fs.showTram then false
      else if !t && !fs.showBus then false
      else true) = true)
      ↔ (if t then fs.showTram else fs.showBus) = true := by
  cases t <;> cases h1 : fs.showTram <;> cases h2 : fs.showBus <;> simp

/-- Membership in the type-filtered stop list. -/
theorem mem_stopsFilteredByType (ds : Dataset) (fs : FilterState) (s : Stop)
    (hmem : s ∈ ds.stopsData) :
    s ∈ stopsFilteredByType ds fs ↔
      (if isTramOf ds s then fs.showTram else fs.showBus) = true := by
  rw [stopsFilteredByType, List.mem_filter]
  simp only [hmem, true_and]
  exact typeKeep_iff fs (isTramOf ds s)

/-! ### Claim theorems -/

/-- C1: a stop of the dataset appears in `visibleStops` iff the master
switch is on, its mode (absent metadata counting as bus) matches an active
mode flag, and either no line is selected or some of its metadata lines is
selected (a stop with absent metadata is dropped once a selection is
non-empty); in particular `visibleStops` is empty whenever the master
switch is off. -/
theorem visibleStops_characterization (ds : Dataset) (fs : FilterState) (s : Stop)
    (hmem : s ∈ ds.stopsData) :
    (s ∈ visibleStops ds fs ↔
      (fs.showStops = true ∧
        (if isTramOf ds s then fs.showTram else fs.showBus) = true ∧
        (fs.selectedLines = [] ∨
          ∃ m, lookupMeta ds s.stop_id = some m ∧
            ∃ line ∈ m.lines, line ∈ fs.selectedLines))) ∧
    (fs.showStops = false → visibleStops ds fs = []) := by
  constructor
  · cases hss : fs.showStops
    · simp [visibleStops, hss]
    · by_cases hsel : fs.selectedLines = []
      · rw [visibleStops]
        simp [hss, hsel, mem_stopsFilteredByType ds fs s hmem]
      · have hne : fs.selectedLines.isEmpty = false := by
          simp [List.isEmpty_iff, hsel]
        rw [visibleStops]
        simp only [hss, Bool.not_true, Bool.false_eq_true, if_false, hne, if_neg]
        rw [List.mem_filter]
        simp only [mem_stopsFilteredByType ds fs s hmem]
        cases hm : lookupMeta ds s.stop_id <;>
          simp [hm, hsel, List.any_eq_true, List.elem_iff]
  · intro h
    simp [visibleStops, h]

/-- Witness for C1: in the scenario dataset with default filters, the tram
stop `S1` is visible. -/
theorem visibleStops_characterization_w : stopS1 ∈ visibleStops dsW fsDef :=
  ((visibleStops_characterization dsW fsDef stopS1 (by decide)).1).mpr
    ⟨rfl, by decide, Or.inl rfl⟩

/-- C2: a shape of the dataset is visible iff at least one of the two mode
toggles is on and either no line is selected or the shape's route is
selected; shape visibility does not depend on the per-mode split. -/
theorem shape_visibility_rule (ds : Dataset) (fs : FilterState) (sh : Shape)
    (hmem : sh ∈ ds.shapesData) :
    sh ∈ visibleShapes ds fs ↔
      ((fs.showBus = true ∨ fs.showTram = true) ∧
        (fs.selectedLines = [] ∨ sh.route_name ∈ fs.selectedLines)) := by
  rw [visibleShapes, List.mem_filter]
  simp only [hmem, true_and]
  exact shapeKeep_iff fs sh.route_name

/-- Witness for C2: with buses hidden, trams shown and no line selection,
the shape with route `T1` is still visible. -/
theorem shape_visibility_rule_w : shapeT1 ∈ visibleShapes dsW fsTramOnly :=
  (shape_visibility_rule dsW fsTramOnly shapeT1 (by decide)).mpr
    ⟨Or.inr rfl, Or.inl rfl⟩

/-- C7: the derivation of the view from the dataset and the filter state is
deterministic (and hence idempotent): identical inputs yield structurally
identical outputs. -/
theorem deriveView_deterministic (ds ds' : Dataset) (fs fs' : FilterState)
    (hds : ds = ds') (hfs : fs = fs') : deriveView ds fs = deriveView ds' fs' := by
  subst hds; subst hfs; rfl

/-- Witness for C7: two evaluations on the scenario inputs coincide. -/
theorem deriveView_deterministic_w : deriveView dsW fsDef = deriveView dsW fsDef :=
  deriveView_deterministic dsW dsW fsDef fsDef rfl rfl

/-- C8: the popup content is a pure function of stop, metadata and colors:
it carries the stop name, one badge per metadata line colored by that
line's color with fallback `#3b82f6`, the constant accessibility answer,
and an image block exactly for the two special stop names. -/
theorem buildPopup_spec (ds : Dataset) (stop : Stop) :
    (buildPopup ds stop).stopName = stop.stop_name ∧
    (buildPopup ds stop).badges =
      (linesOfMeta (lookupMeta ds stop.stop_id)).map
        (fun line => (line, (colorForLine ds line).getD "#3b82f6")) ∧
    (buildPopup ds stop).accessText = "Oui" ∧
    ((buildPopup ds stop).image.isSome = true ↔
      stop.stop_name = "Commerce" ∨ stop.stop_name = "Vincent Gâche") ∧
    (∀ ds' stop', ds = ds' → stop = stop' → buildPopup ds stop = buildPopup ds' stop') := by
  refine ⟨rfl, ?_, rfl, ?_, ?_⟩
  · cases h : lookupMeta ds stop.stop_id <;> simp [buildPopup, linesOfMeta, h]
  · by_cases h1 : stop.stop_name = "Commerce" <;>
      by_cases h2 : stop.stop_name = "Vincent Gâche" <;>
        simp [buildPopup, h1, h2]
  · intro ds' stop' h1 h2
    subst h1; subst h2; rfl

/-- Witness for C8: the stop named `Commerce` gets the constant
accessibility answer and an image block. -/
theorem buildPopup_spec_w :
    (buildPopup dsW stopS3).accessText = "Oui" ∧
      (buildPopup dsW stopS3).image.isSome = true :=
  ⟨(buildPopup_spec dsW stopS3).2.2.1,
    ((buildPopup_spec dsW stopS3).2.2.2.1).mpr (Or.inl rfl)⟩

/-- C10: the visible shapes (and the rebuilt polyline layer) are
independent of `showStops`, `searchQuery` and `showAllLines`. -/
theorem visibleShapes_independent_of_other_flags (ds : Dataset) (fs fs' : FilterState)
    (h1 : fs'.showBus = fs.showBus) (h2 : fs'.showTram = fs.showTram)
    (h3 : fs'.selectedLines = fs.selectedLines) :
    visibleShapes ds fs' = visibleShapes ds fs ∧
      renderShapes ds fs' = renderShapes ds fs :=
  ⟨visibleShapes_agree ds h1 h2 h3, renderShapes_agree ds h1 h2 h3⟩

/-- Witness for C10: switching the master stop toggle off, typing a search
text and expanding the list leaves the visible shapes unchanged. -/
theorem visibleShapes_independent_of_other_flags_w :
    visibleShapes dsW fsOtherFlags = visibleShapes dsW fsDef ∧
      renderShapes dsW fsOtherFlags = renderShapes dsW fsDef :=
  visibleShapes_independent_of_other_flags dsW fsDef fsOtherFlags rfl rfl rfl

/-- C5: the displayed statistics are cut to the first 6 entries exactly
when the list is not expanded and the search text is empty; any non-empty
search text lifts the cap, and every matching entry is then displayed. -/
theorem displayedLines_truncation (ds : Dataset) (fs : FilterState) :
    (fs.showAllLines = false → fs.searchQuery = "" →
      displayedLines ds fs = (sortedLinesAfterSearch ds fs).take 6) ∧
    (fs.showAllLines = true ∨ fs.searchQuery ≠ "" →
      displayedLines ds fs = sortedLinesAfterSearch ds fs) ∧
    (fs.searchQuery ≠ "" → ∀ p ∈ sortedLinesBase ds fs,
      strIncludes (lower p.1) (lower fs.searchQuery) = true →
        p ∈ displayedLines ds fs) := by
  have hfull : fs.showAllLines = true ∨ fs.searchQuery ≠ "" →
      displayedLines ds fs = sortedLinesAfterSearch ds fs := by
    intro h
    rcases h with h | h
    · simp [displayedLines, h]
    · have hb : (fs.searchQuery == "") = false := by simp [h]
      simp [displayedLines, hb]
  refine ⟨?_, hfull, ?_⟩
  · intro h1 h2
    simp [displayedLines, h1, h2]
  · intro hq p hp hmatch
    rw [hfull (Or.inr hq), sortedLinesAfterSearch]
    cases htr : trimEmpty fs.searchQuery
    · simp only [htr, Bool.not_false, if_pos]
      exact List.mem_filter.mpr ⟨hp, hmatch⟩
    · simp only [htr, Bool.not_true, Bool.false_eq_true, if_false]
      exact hp

/-- Witness for C5: with ten distinct lines, default filters display
exactly 6 entries, expanding the list displays all 10. -/
theorem displayedLines_truncation_w :
    (displayedLines ds10 fsDef).length = 6 ∧
      (displayedLines ds10 fsShowAll).length = 10 := by
  have h1 := (displayedLines_truncation ds10 fsDef).1 rfl rfl
  have h2 := (displayedLines_truncation ds10 fsShowAll).2.1 (Or.inl rfl)
  exact ⟨by rw [h1]; decide, by rw [h2]; decide⟩

/-- C4 counterexample: with the whitespace-only search text `" "` the
search text is non-empty, yet the displayed entries are not the entries
whose name contains it — the entry `L1` stays displayed although `l1` does
not contain `" "`. -/
theorem search_filter_cex :
    fsBlankSearch.searchQuery ≠ "" ∧
      ("L1", 1) ∈ displayedLines dsW fsBlankSearch ∧
      strIncludes (lower "L1") (lower fsBlankSearch.searchQuery) = false ∧
      displayedLines dsW fsBlankSearch ≠
        (sortedLinesBase dsW fsBlankSearch).filter
          (fun l => strIncludes (lower l.1) (lower fsBlankSearch.searchQuery)) := by
  refine ⟨by decide, by decide, by decide, by decide⟩

/-- C4 (amended): whenever the search text contains a non-whitespace
character (its trim is non-empty), the displayed entries are exactly those
whose name contains the full search text as a case-insensitive substring;
when the search text is empty or all-whitespace, no search filtering is
applied. -/
theorem search_filter_amended (ds : Dataset) (fs : FilterState) :
    (trimEmpty fs.searchQuery = false →
      displayedLines ds fs =
        (sortedLinesBase ds fs).filter
          (fun l => strIncludes (lower l.1) (lower fs.searchQuery))) ∧
    (trimEmpty fs.searchQuery = true →
      sortedLinesAfterSearch ds fs = sortedLinesBase ds fs) := by
  constructor
  · intro htr
    have hq : fs.searchQuery ≠ "" := by
      intro h
      rw [h] at htr
      exact absurd htr (by decide)
    have hb : (fs.searchQuery == "") = false := by simp [hq]
    simp [displayedLines, hb, sortedLinesAfterSearch, htr]
  · intro htr
    simp [sortedLinesAfterSearch, htr]

/-- Witness for the amended C4: searching `t` displays exactly the line
`T1`. -/
theorem search_filter_amended_w :
    trimEmpty fsSearchT.searchQuery = false ∧
      displayedLines dsW fsSearchT = [("T1", 2)] := by
  refine ⟨by decide, ?_⟩
  rw [(search_filter_amended dsW fsSearchT).1 (by decide)]
  decide

/-- The stats aggregation ignores stops without metadata: folding over a
stop list equals folding over its metadata-bearing sublist. -/
theorem statsFold_filter_hasMeta (ds : Dataset) (stops : List Stop) :
    statsFold ds stops = statsFold ds (stops.filter (hasMeta ds)) := by
  rw [statsFold, statsFold]
  suffices h : ∀ (l : List Stop) (acc : Nat × Nat × List (String × Nat)),
      l.foldl (statsStep ds) acc = (l.filter (hasMeta ds)).foldl (statsStep ds) acc from
    h stops (0, 0, [])
  intro l
  induction l with
  | nil => intro acc; rfl
  | cons s l ih =>
    intro acc
    cases h : hasMeta ds s
    · have hnone : lookupMeta ds s.stop_id = none := by
        cases hm : lookupMeta ds s.stop_id
        · rfl
        · rw [hasMeta, hm] at h
          exact absurd h (by simp)
      simp only [List.filter_cons, h, if_neg, List.foldl_cons, Bool.false_eq_true]
      rw [statsStep, hnone]
      exact ih acc
    · simp only [List.filter_cons, h, if_pos, List.foldl_cons]
      exact ih (statsStep ds acc s)

/-- C9: a stop without metadata is visible (as a bus-mode marker) under
default-on filters with no selection, yet the statistics aggregation skips
it — the counts are those of the metadata-bearing stops alone, a list the
stop is not part of. -/
theorem metaless_stop_visible_uncounted (ds : Dataset) (fs : FilterState) (s : Stop)
    (hmem : s ∈ ds.stopsData) (hmeta : lookupMeta ds s.stop_id = none)
    (hss : fs.showStops = true) (hbus : fs.showBus = true)
    (hsel : fs.selectedLines = []) :
    s ∈ visibleStops ds fs ∧
    (markerOf ds s).icon = Icon.bus ∧
    markerOf ds s ∈ renderMarkers ds fs ∧
    statsAgg ds fs = statsFold ds ((stopsFilteredByType ds fs).filter (hasMeta ds)) ∧
    s ∉ (stopsFilteredByType ds fs).filter (hasMeta ds) := by
  have htram : isTramOf ds s = false := by rw [isTramOf, hmeta]
  have hvis : s ∈ visibleStops ds fs := by
    rw [visibleStops]
    simp only [hss, Bool.not_true, Bool.false_eq_true, if_false, hsel, List.isEmpty_nil,
      if_pos]
    exact (mem_stopsFilteredByType ds fs s hmem).mpr (by rw [htram]; exact hbus)
  refine ⟨hvis, ?_, ?_, ?_, ?_⟩
  · rw [markerOf]
    simp [htram]
  · rw [renderMarkers]
    exact List.mem_map_of_mem (markerOf ds) hvis
  · rw [statsAgg]
    exact statsFold_filter_hasMeta ds _
  · intro hin
    have h2 := (List.mem_filter.mp hin).2
    rw [hasMeta, hmeta] at h2
    exact absurd h2 (by simp)

/-- Witness for C9: the metadata-less stop `S3` is visible with the bus
icon under default filters. -/
theorem metaless_stop_visible_uncounted_w :
    stopS3 ∈ visibleStops dsW fsDef ∧ (markerOf dsW stopS3).icon = Icon.bus := by
  have h := metaless_stop_visible_uncounted dsW fsDef stopS3 (by decide) (by decide)
    rfl rfl rfl
  exact ⟨h.1, h.2.1⟩

/-- C6 counterexample: `toggleStopsMaster` rebuilds the marker layer but
leaves the polyline layer untouched (and hence stale here), and the
search-text and show-all-lines mutations rebuild neither layer. -/
theorem recompute_redraw_cex :
    (toggleStopsMaster dsW s0).markers =
        renderMarkers dsW (toggleStopsMaster dsW s0).filter ∧
      (toggleStopsMaster dsW s0).shapes ≠
        renderShapes dsW (toggleStopsMaster dsW s0).filter ∧
      (setSearchQuery "x" s0).markers = s0.markers ∧
      (setSearchQuery "x" s0).shapes = s0.shapes ∧
      (toggleShowAllLines s0).markers = s0.markers ∧
      (toggleShowAllLines s0).shapes = s0.shapes := by
  refine ⟨by decide, by decide, rfl, rfl, rfl, rfl⟩

/-- C6 (amended): `toggleType`, `toggleLine` and `clearLineSelection`
rebuild both layers from the new filter state; `toggleStopsMaster`
rebuilds only the marker layer; the search-text and show-all-lines
mutations rebuild neither.  Since the untouched layers do not depend on
the mutated fields, every handler preserves the layers-match-state
invariant. -/
theorem handlers_preserve_sync (ds : Dataset) (s : AppState) (h : synced ds s) :
    synced ds (toggleStopsMaster ds s) ∧
    (∀ k, synced ds (toggleType ds k s)) ∧
    (∀ name, synced ds (toggleLine ds name s)) ∧
    synced ds (clearLineSelection ds s) ∧
    (∀ q, synced ds (setSearchQuery q s)) ∧
    synced ds (toggleShowAllLines s) := by
  obtain ⟨hm, hsh⟩ := h
  refine ⟨⟨rfl, ?_⟩, ?_, ?_, ⟨rfl, rfl⟩, ?_, ?_⟩
  · show s.shapes = renderShapes ds _
    rw [hsh]
    exact (renderShapes_agree ds rfl rfl rfl).symm
  · intro k
    cases k <;> exact ⟨rfl, rfl⟩
  · intro name
    exact ⟨rfl, rfl⟩
  · intro q
    constructor
    · show s.markers = renderMarkers ds _
      rw [hm]
      exact (renderMarkers_agree ds rfl rfl rfl rfl).symm
    · show s.shapes = renderShapes ds _
      rw [hsh]
      exact (renderShapes_agree ds rfl rfl rfl).symm
  · constructor
    · show s.markers = renderMarkers ds _
      rw [hm]
      exact (renderMarkers_agree ds rfl rfl rfl rfl).symm
    · show s.shapes = renderShapes ds _
      rw [hsh]
      exact (renderShapes_agree ds rfl rfl rfl).symm

/-- Witness for the amended C6: from a synced state, the master toggle and
a search-text change both leave the layers matching the filter state. -/
theorem handlers_preserve_sync_w :
    synced dsW (toggleStopsMaster dsW sSynced) ∧
      synced dsW (setSearchQuery "x" sSynced) := by
  have h := handlers_preserve_sync dsW sSynced ⟨rfl, rfl⟩
  exact ⟨h.1, h.2.2.2.2.1 "x"⟩

/-! ### Lemmas for the line-statistics claim -/

/-- Boolean equality on strings is symmetric. -/
theorem beqComm (a b : String) : (a == b) = (b == a) := by
  by_cases h : a = b
  · subst h; rfl
  · rw [beq_eq_false_iff_ne.mpr h, beq_eq_false_iff_ne.mpr (Ne.symm h)]

/-- `contains` distributes over append. -/
theorem containsAppend (l1 l2 : List String) (y : String) :
    (l1 ++ l2).contains y = (l1.contains y || l2.contains y) := by
  induction l1 with
  | nil => rfl
  | cons x xs ih => simp [List.contains_cons, ih, Bool.or_assoc]

/-- Key membership of an association list, as an `any` over entries. -/
theorem keysContains (m : List (String × Nat)) (x : String) :
    (m.map Prod.fst).contains x = m.any (fun p => p.1 == x) := by
  induction m with
  | nil => rfl
  | cons p m ih =>
    rw [List.map_cons, List.contains_cons, List.any_cons, ih, beqComm]

/-- `bumpLine` keeps the key list when the key is present and appends the
key otherwise. -/
theorem bumpLine_keys (m : List (String × Nat)) (x : String) :
    (bumpLine m x).map Prod.fst =
      if m.any (fun p => p.1 == x) then m.map Prod.fst
      else m.map Prod.fst ++ [x] := by
  rw [bumpLine]
  by_cases h : m.any (fun p => p.1 == x) = true
  · rw [if_pos h, if_pos h, List.map_map]
    congr 1
    funext p
    by_cases hp : (p.1 == x) = true <;> simp [Function.comp, hp]
  · rw [if_neg h, if_neg h, List.map_append]
    rfl

/-- `firstOccAux` only depends on the membership of `seen`. -/
theorem firstOccAux_congr {seen1 seen2 : List String}
    (h : ∀ y, seen1.contains y = seen2.contains y) (ls : List String) :
    firstOccAux seen1 ls = firstOccAux seen2 ls := by
  induction ls generalizing seen1 seen2 with
  | nil => rfl
  | cons x xs ih =>
    have h' : ∀ y, (x :: seen1).contains y = (x :: seen2).contains y := fun y => by
      rw [List.contains_cons, List.contains_cons, h y]
    rw [firstOccAux, firstOccAux, h x]
    cases hc : seen2.contains x
    · rw [if_neg Bool.false_ne_true, if_neg Bool.false_ne_true, ih h']
    · rw [if_pos rfl, if_pos rfl]
      exact ih h

/-- Membership in `firstOccAux seen ls`: in `ls` but not in `seen`. -/
theorem contains_firstOccAux (ls : List String) (seen : List String) (y : String) :
    (firstOccAux seen ls).contains y = (ls.contains y && !(seen.contains y)) := by
  induction ls generalizing seen with
  | nil => rfl
  | cons x xs ih =>
    rw [firstOccAux]
    cases hc : seen.contains x
    · rw [if_neg Bool.false_ne_true, List.contains_cons,
        List.contains_cons, ih (x :: seen), List.contains_cons]
      by_cases hxy : y = x
      · subst hxy
        rw [beq_self_eq_true, hc]
        rfl
      · rw [beq_eq_false_iff_ne.mpr hxy]
        rfl
    · rw [if_pos rfl, ih seen, List.contains_cons]
      by_cases hxy : y = x
      · subst hxy
        rw [beq_self_eq_true, hc]
        cases xs.contains y <;> rfl
      · rw [beq_eq_false_iff_ne.mpr hxy]
        rfl

/-- `firstOccAux` over an append splits, the second part seeing the first
as already encountered. -/
theorem firstOccAux_append (l1 l2 seen : List String) :
    firstOccAux seen (l1 ++ l2) =
      firstOccAux seen l1 ++ firstOccAux (l1 ++ seen) l2 := by
  induction l1 generalizing seen with
  | nil => simp [firstOccAux]
  | cons x xs ih =>
    rw [List.cons_append, firstOccAux, firstOccAux]
    cases hc : seen.contains x
    · rw [if_neg Bool.false_ne_true, if_neg Bool.false_ne_true, ih (x :: seen),
        List.cons_append]
      have h' : ∀ y, (xs ++ x :: seen).contains y = ((x :: xs) ++ seen).contains y := by
        intro y
        rw [containsAppend, List.contains_cons, List.cons_append, List.contains_cons,
          containsAppend]
        cases xs.contains y <;> cases seen.contains y <;> cases (y == x) <;> rfl
      rw [firstOccAux_congr h' l2]
    · rw [if_pos rfl, ih seen]
      have h' : ∀ y, (xs ++ seen).contains y = ((x :: xs) ++ seen).contains y := by
        intro y
        rw [containsAppend, List.cons_append, List.contains_cons, containsAppend]
        by_cases hxy : y = x
        · subst hxy
          rw [beq_self_eq_true, hc]
          cases xs.contains y <;> rfl
        · rw [beq_eq_false_iff_ne.mpr hxy]
          rfl
      rw [firstOccAux_congr h' l2]
      rfl

/-- Folding `bumpLine` appends exactly the first occurrences of the new
keys, in order. -/
theorem foldl_bumpLine_keys (ls : List String) (m : List (String × Nat)) :
    (ls.foldl bumpLine m).map Prod.fst =
      m.map Prod.fst ++ firstOccAux (m.map Prod.fst) ls := by
  induction ls generalizing m with
  | nil => simp [firstOccAux]
  | cons x xs ih =>
    rw [List.foldl_cons, ih (bumpLine m x), bumpLine_keys, firstOccAux, keysContains]
    cases h : m.any (fun p => p.1 == x)
    · rw [if_neg Bool.false_ne_true, if_neg Bool.false_ne_true, List.append_assoc,
        List.singleton_append]
      congr 2
      refine firstOccAux_congr (fun y => ?_) xs
      rw [containsAppend, List.contains_cons, List.contains_cons]
      cases hy : (y == x) <;> cases hm : (m.map Prod.fst).contains y <;> rfl
    · rw [if_pos rfl, if_pos rfl]

/-- Key list of the stats fold: the keys already accumulated, followed by
the first occurrences of the scanned lines. -/
theorem statsFold_keys_aux (ds : Dataset) (stops : List Stop) :
    ∀ acc : Nat × Nat × List (String × Nat),
      ((stops.foldl (statsStep ds) acc).2.2).map Prod.fst =
        acc.2.2.map Prod.fst ++
          firstOccAux (acc.2.2.map Prod.fst) (lineScan ds stops) := by
  induction stops with
  | nil => intro acc; simp [lineScan, firstOccAux]
  | cons s stops ih =>
    intro acc
    rw [List.foldl_cons, lineScan]
    cases hm : lookupMeta ds s.stop_id with
    | none =>
      have hstep : statsStep ds acc s = acc := by
        simp only [statsStep, hm]
      rw [ih (statsStep ds acc s), hstep, List.nil_append]
    | some meta =>
      have hstep : (statsStep ds acc s).2.2 = addStopLines acc.2.2 meta := by
        simp only [statsStep, hm]
        cases meta.is_tram <;> rfl
      rw [ih (statsStep ds acc s), hstep, addStopLines, foldl_bumpLine_keys,
        firstOccAux_append, ← List.append_assoc]
      congr 1
      refine firstOccAux_congr (fun y => ?_) (lineScan ds stops)
      rw [containsAppend, contains_firstOccAux, containsAppend]
      cases h1 : (acc.2.2.map Prod.fst).contains y <;>
        cases h2 : meta.lines.contains y <;> rfl

/-- `bumpLine` with a fresh key appends a count of 1 for that key and
changes no other value. -/
theorem assocValue_append_new (m : List (String × Nat)) (x y : String)
    (h : m.any (fun p => p.1 == x) = false) :
    assocValue (m ++ [(x, 1)]) y = assocValue m y + (if y == x then 1 else 0) := by
  induction m with
  | nil =>
    by_cases hxy : y = x
    · subst hxy
      simp [assocValue]
    · have hb : (y == x) = false := beq_eq_false_iff_ne.mpr hxy
      have hb' : (x == y) = false := beq_eq_false_iff_ne.mpr (Ne.symm hxy)
      simp [assocValue, hb, hb']
  | cons p m ih =>
    rw [List.any_cons] at h
    have hp : (p.1 == x) = false := by
      cases hval : (p.1 == x)
      · rfl
      · rw [hval] at h
        exact absurd h (by simp)
    have hm' : m.any (fun p => p.1 == x) = false := by
      cases hval : m.any (fun p => p.1 == x)
      · rfl
      · rw [hval] at h
        exact absurd h (by simp)
    rw [List.cons_append, assocValue, assocValue]
    cases hpy : (p.1 == y)
    · rw [if_neg Bool.false_ne_true, if_neg Bool.false_ne_true]
      exact ih hm'
    · rw [if_pos rfl, if_pos rfl]
      have hyx : (y == x) = false := by
        by_cases hxy : y = x
        · have h1 : p.1 = y := eq_of_beq hpy
          rw [h1, hxy, beq_self_eq_true] at hp
          exact absurd hp (by simp)
        · exact beq_eq_false_iff_ne.mpr hxy
      rw [hyx]
      rfl

/-- Incrementing key `x` in place leaves every other key's value
unchanged. -/
theorem assocValue_map_inc_ne (m : List (String × Nat)) (x y : String) (h : ¬ y = x) :
    assocValue (m.map (fun p => if p.1 == x then (p.1, p.2 + 1) else p)) y =
      assocValue m y := by
  induction m with
  | nil => rfl
  | cons p m ih =>
    rw [List.map_cons, assocValue, assocValue]
    cases hpx : (p.1 == x)
    · rw [if_neg Bool.false_ne_true]
      cases hpy : (p.1 == y)
      · rw [if_neg Bool.false_ne_true, if_neg Bool.false_ne_true]
        exact ih
      · rw [if_pos rfl, if_pos rfl]
    · have hpy : (p.1 == y) = false := by
        by_cases hy : p.1 = y
        · exact absurd (hy.symm.trans (eq_of_beq hpx)) h
        · exact beq_eq_false_iff_ne.mpr hy
      rw [if_pos rfl]
      rw [if_neg (show ¬ ((p.1, p.2 + 1).1 == y) = true by simp [hpy])]
      rw [hpy, if_neg Bool.false_ne_true]
      exact ih

/-- Incrementing a present key `x` in place adds exactly 1 to its value. -/
theorem assocValue_map_inc_self (m : List (String × Nat)) (x : String)
    (h : m.any (fun p => p.1 == x) = true) :
    assocValue (m.map (fun p => if p.1 == x then (p.1, p.2 + 1) else p)) x =
      assocValue m x + 1 := by
  induction m with
  | nil => exact absurd h (by simp)
  | cons p m ih =>
    rw [List.map_cons, assocValue, assocValue]
    cases hpx : (p.1 == x)
    · have hm2 : m.any (fun p => p.1 == x) = true := by
        rw [List.any_cons, hpx] at h
        simpa using h
      rw [if_neg Bool.false_ne_true]
      rw [hpx, if_neg Bool.false_ne_true, if_neg Bool.false_ne_true]
      exact ih hm2
    · rw [if_pos rfl, if_pos rfl]
      rw [if_pos (show ((p.1, p.2 + 1).1 == x) = true by simp [hpx])]

/-- `bumpLine` adds 1 to the bumped key's value and nothing else. -/
theorem assocValue_bumpLine (m : List (String × Nat)) (x y : String) :
    assocValue (bumpLine m x) y = assocValue m y + (if y == x then 1 else 0) := by
  rw [bumpLine]
  cases h : m.any (fun p => p.1 == x)
  · rw [if_neg Bool.false_ne_true]
    exact assocValue_append_new m x y h
  · rw [if_pos rfl]
    by_cases hxy : y = x
    · subst hxy
      rw [beq_self_eq_true]
      exact assocValue_map_inc_self m y h
    · rw [beq_eq_false_iff_ne.mpr hxy]
      exact assocValue_map_inc_ne m x y hxy

/-- Folding `bumpLine` over a line list adds each line's occurrence count
to its accumulated value. -/
theorem foldl_bumpLine_assoc (ls : List String) (m : List (String × Nat)) (y : String) :
    assocValue (ls.foldl bumpLine m) y = assocValue m y + ls.count y := by
  induction ls generalizing m with
  | nil => rfl
  | cons x xs ih =>
    rw [List.foldl_cons, ih (bumpLine m x), assocValue_bumpLine, List.count_cons,
      beqComm y x]
    cases hb : (x == y) <;> omega

/-- Value held by the stats fold at any key: accumulated value plus the
occurrence count of the key in the line scan. -/
theorem statsFold_assoc_aux (ds : Dataset) (stops : List Stop) (y : String) :
    ∀ acc : Nat × Nat × List (String × Nat),
      assocValue ((stops.foldl (statsStep ds) acc).2.2) y =
        assocValue acc.2.2 y + (lineScan ds stops).count y := by
  induction stops with
  | nil => intro acc; rfl
  | cons s stops ih =>
    intro acc
    rw [List.foldl_cons, lineScan]
    cases hm : lookupMeta ds s.stop_id with
    | none =>
      have hstep : statsStep ds acc s = acc := by
        simp only [statsStep, hm]
      rw [ih (statsStep ds acc s), hstep, List.nil_append]
    | some meta =>
      have hstep : (statsStep ds acc s).2.2 = addStopLines acc.2.2 meta := by
        simp only [statsStep, hm]
        cases meta.is_tram <;> rfl
      rw [ih (statsStep ds acc s), hstep, addStopLines, foldl_bumpLine_assoc,
        List.count_append, Nat.add_assoc]

/-- Filtering one count class through an ordered insert: the inserted pair
lands in front of its class, other classes are untouched. -/
theorem filter_orderedInsert (p : String × Nat) (l : List (String × Nat)) (c : Nat) :
    (l.orderedInsert statRel p).filter (fun q => q.2 == c) =
      if (p.2 == c) = true then p :: l.filter (fun q => q.2 == c)
      else l.filter (fun q => q.2 == c) := by
  induction l with
  | nil =>
    rw [List.orderedInsert_nil, List.filter_cons]
  | cons b l ih =>
    rw [List.orderedInsert]
    by_cases hr : statRel p b
    · rw [if_pos hr, List.filter_cons]
    · rw [if_neg hr, List.filter_cons, ih]
      cases hb : (b.2 == c)
      · simp only [List.filter_cons, hb, Bool.false_eq_true, if_false]
      · have hp : (p.2 == c) = false := by
          cases hval : (p.2 == c)
          · rfl
          · have e1 : p.2 = c := eq_of_beq hval
            have e2 : b.2 = c := eq_of_beq hb
            exact absurd (show statRel p b from by rw [statRel, e1, e2]) hr
        simp only [List.filter_cons, hb, hp, Bool.false_eq_true, if_false,
          eq_self_iff_true, if_true]

/-- The stable sort permutes count classes nowhere: filtering the sorted
list to one count gives the same list as filtering the input. -/
theorem filter_insertionSort (l : List (String × Nat)) (c : Nat) :
    (l.insertionSort statRel).filter (fun q => q.2 == c) =
      l.filter (fun q => q.2 == c) := by
  induction l with
  | nil => rfl
  | cons a l ih =>
    rw [List.insertionSort, filter_orderedInsert, ih, List.filter_cons]

/-- C3: the line statistics are built from the type-filtered stops alone
(independent of the selected lines and the other flags), count one per
occurrence of a line id in a stop's metadata lines, and are sorted by
count descending with ties kept in first-occurrence order of the
type-filtered stop scan (stable sort). -/
theorem lineStats_sorted_stable (ds : Dataset) (fs : FilterState) :
    List.Pairwise statRel (sortedLinesBase ds fs) ∧
    (∀ c, (sortedLinesBase ds fs).filter (fun q => q.2 == c) =
      (linesEntries ds fs).filter (fun q => q.2 == c)) ∧
    (linesEntries ds fs).map Prod.fst =
      firstOccurrences (lineScan ds (stopsFilteredByType ds fs)) ∧
    (∀ y, assocValue (linesEntries ds fs) y =
      (lineScan ds (stopsFilteredByType ds fs)).count y) ∧
    (∀ fs', fs'.showBus = fs.showBus → fs'.showTram = fs.showTram →
      sortedLinesBase ds fs' = sortedLinesBase ds fs) := by
  refine ⟨List.sorted_insertionSort statRel _, fun c => filter_insertionSort _ c,
    ?_, ?_, ?_⟩
  · have h := statsFold_keys_aux ds (stopsFilteredByType ds fs) (0, 0, [])
    rw [linesEntries, statsAgg, statsFold]
    simpa [firstOccurrences] using h
  · intro y
    have h := statsFold_assoc_aux ds (stopsFilteredByType ds fs) y (0, 0, [])
    rw [linesEntries, statsAgg, statsFold]
    simpa [assocValue] using h
  · intro fs' h1 h2
    have hst : stopsFilteredByType ds fs' = stopsFilteredByType ds fs := by
      simp only [stopsFilteredByType, h1, h2]
    rw [sortedLinesBase, sortedLinesBase, linesEntries, linesEntries, statsAgg,
      statsAgg, hst]

/-- Witness for C3: in the scenario dataset the entry keys come out in
first-occurrence order `T1, L1`, the count of `T1` is 2, and selecting a
line does not change the sorted statistics. -/
theorem lineStats_sorted_stable_w :
    (linesEntries dsW fsDef).map Prod.fst = ["T1", "L1"] ∧
      assocValue (linesEntries dsW fsDef) "T1" = 2 ∧
      sortedLinesBase dsW { fsDef with selectedLines := ["L1"] } =
        sortedLinesBase dsW fsDef := by
  have ha := (lineStats_sorted_stable dsW fsDef).2.2.2.1
  refine ⟨?_, ?_, (lineStats_sorted_stable dsW fsDef).2.2.2.2 _ rfl rfl⟩
  · rw [(lineStats_sorted_stable dsW fsDef).2.2.1]
    decide
  · rw [ha ("T1")]
    decide

end NantesMap
